import Mathlib

/-!
Shallow embedding of the 8086 MOV-instruction decoder (Go package decoder).
Bytes are modelled as Nat values below 256; Go byte/int16/uint16 conversions
are modelled with explicit arithmetic modulo 2^8 and 2^16.  Fallible
operations (Go panics on out-of-range slice indexing, Go error returns)
are modelled with Option / explicit result constructors.
-/

namespace Decoder8086

/-- Go conversion int8(b) of a byte, as a mathematical integer. -/
def sint8 (b : Nat) : Int :=
  let v := b % 256
  if v < 128 then (v : Int) else (v : Int) - 256

/-- Go expression int16(lo) | int16(hi)<<8 for bytes lo, hi: the 16-bit
little-endian value interpreted as a signed integer. -/
def sint16 (lo hi : Nat) : Int :=
  let v := (lo % 256) + 256 * (hi % 256)
  if v < 32768 then (v : Int) else (v : Int) - 65536

/-- Go expression uint16(lo) | uint16(hi)<<8 for bytes lo, hi. -/
def uint16le (lo hi : Nat) : Nat :=
  (lo % 256) + 256 * (hi % 256)

/-- Go type Opcode (a byte). -/
abbrev Opcode := Nat

/-- Opcode constant 0b0010_0010 (register/memory to/from register). -/
def MovRegisterMemoryToFromRegister : Opcode := 0b00100010

/-- Opcode constant 0b0110_0011 (immediate to register/memory). -/
def MovImmediateToRegisterMemory : Opcode := 0b01100011

/-- Opcode constant 0b1011 (immediate to register). -/
def MovImmediateToRegister : Opcode := 0b1011

/-- Opcode constant 0b0101_0000 (memory to accumulator). -/
def MovMemoryToAccumulator : Opcode := 0b01010000

/-- Opcode constant 0b0101_0001 (accumulator to memory). -/
def MovAccumulatorToMemory : Opcode := 0b01010001

/-- Go func (d *Decoder) analyzeOpCode(instruction []byte) (Opcode, int, error),
applied to the two bytes instruction[0], instruction[1].  The error return
("cannot identify instruction") is modelled as none. -/
def analyzeOpCode (b0 b1 : Nat) : Option (Opcode × Nat) :=
  if b0 >>> 2 = MovRegisterMemoryToFromRegister then
    let modField := b1 >>> 6
    let bytesToRead : Nat :=
      if modField = 0b00 then
        if b1 &&& 0b0000111 = 0b110 then 4 else 2
      else if modField = 0b01 then 3
      else if modField = 0b10 then 4
      else if modField = 0b11 then 2
      else 0
    some (MovRegisterMemoryToFromRegister, bytesToRead)
  else if b0 >>> 1 = MovMemoryToAccumulator then
    some (MovMemoryToAccumulator, if b0 &&& 0b1 = 1 then 3 else 2)
  else if b0 >>> 1 = MovAccumulatorToMemory then
    some (MovAccumulatorToMemory, if b0 &&& 0b1 = 1 then 3 else 2)
  else if b0 >>> 1 = MovImmediateToRegisterMemory then
    let base : Nat := if b0 &&& 0b1 = 1 then 4 else 3
    let modField := b1 >>> 6
    let bytesToRead : Nat :=
      if modField = 0b01 then base + 1
      else if modField = 0b10 then base + 2
      else base
    some (MovImmediateToRegisterMemory, bytesToRead)
  else if b0 >>> 4 = MovImmediateToRegister then
    some (MovImmediateToRegister, if (b0 >>> 3) &&& 0b00001 = 1 then 3 else 2)
  else
    none

/-- Go func byteToRegisterW1String (register table for w = 1). -/
def byteToRegisterW1String (value : Nat) : String :=
  if value = 0b000 then "ax"
  else if value = 0b001 then "cx"
  else if value = 0b010 then "dx"
  else if value = 0b011 then "bx"
  else if value = 0b100 then "sp"
  else if value = 0b101 then "bp"
  else if value = 0b110 then "si"
  else if value = 0b111 then "di"
  else ""

/-- Go func byteToRegisterW0String (register table for w = 0). -/
def byteToRegisterW0String (value : Nat) : String :=
  if value = 0b000 then "al"
  else if value = 0b001 then "cl"
  else if value = 0b010 then "dl"
  else if value = 0b011 then "bl"
  else if value = 0b100 then "ah"
  else if value = 0b101 then "ch"
  else if value = 0b110 then "dh"
  else if value = 0b111 then "bh"
  else ""

/-- Go func byteToRegisterString(isWordOperation bool, register byte) string. -/
def byteToRegisterString (isWordOperation : Bool) (register : Nat) : String :=
  if isWordOperation then byteToRegisterW1String register
  else byteToRegisterW0String register

/-- Go func effectiveAddressCalculation(rmField byte) string. -/
def effectiveAddressCalculation (rmField : Nat) : String :=
  if rmField = 0b000 then "bx + si"
  else if rmField = 0b001 then "bx + di"
  else if rmField = 0b010 then "bp + si"
  else if rmField = 0b011 then "bp + di"
  else if rmField = 0b100 then "si"
  else if rmField = 0b101 then "di"
  else if rmField = 0b110 then "bp"
  else if rmField = 0b111 then "bx"
  else ""

/-- Go func decodeMovRegisterMemoryToFromRegister(instruction []byte) string.
A byte access instruction[i] past the end of the slice is a Go panic,
modelled as none. -/
def decodeMovRegisterMemoryToFromRegister (instruction : List Nat) :
    Option String := do
  let i0 ← instruction.get? 0
  let i1 ← instruction.get? 1
  let w : Bool := i0 &&& 0b1 == 1
  let d : Bool := (i0 >>> 1) &&& 0b1 == 1
  let modField := (i1 >>> 6) &&& 0b11
  let regField := (i1 >>> 3) &&& 0b0000111
  let rmField := i1 &&& 0b0000111
  let dst : String := if d then byteToRegisterString w regField ++ ", " else ""
  let src : String := if !d then ", " ++ byteToRegisterString w regField else ""
  if modField = 0b00 then
    if rmField = 0b110 then do
      let i2 ← instruction.get? 2
      let i3 ← instruction.get? 3
      pure ("mov " ++ dst ++ "[" ++ toString (sint16 i2 i3) ++ "]" ++ src)
    else
      pure ("mov " ++ dst ++ "[" ++ effectiveAddressCalculation rmField ++ "]"
        ++ src)
  else if modField = 0b01 then do
    let i2 ← instruction.get? 2
    pure ("mov " ++ dst ++ "[" ++ effectiveAddressCalculation rmField ++ " + "
      ++ toString (sint8 i2) ++ "]" ++ src)
  else if modField = 0b10 then do
    let i2 ← instruction.get? 2
    let i3 ← instruction.get? 3
    pure ("mov " ++ dst ++ "[" ++ effectiveAddressCalculation rmField ++ " + "
      ++ toString (sint16 i2 i3) ++ "]" ++ src)
  else if modField = 0b11 then
    pure ("mov " ++ byteToRegisterString w rmField ++ ", "
      ++ byteToRegisterString w regField)
  else
    pure "mov "

/-- Go func decodeMovImmediateToRegisterMemory(instruction []byte) string.
Note: in the mod=10 arm the displacement is read with uint16 (unsigned),
and in the mod=00, rm=110 arm the code emits the literal placeholder
"direct address 2". -/
def decodeMovImmediateToRegisterMemory (instruction : List Nat) :
    Option String := do
  let i0 ← instruction.get? 0
  let i1 ← instruction.get? 1
  let w : Bool := i0 &&& 0b1 == 1
  let modField := (i1 >>> 6) &&& 0b11
  let rmField := i1 &&& 0b0000111
  if modField = 0b00 then
    let addr : String :=
      if rmField = 0b110 then "direct address 2"
      else "[" ++ effectiveAddressCalculation rmField ++ "]"
    if w then do
      let i2 ← instruction.get? 2
      let i3 ← instruction.get? 3
      pure ("mov " ++ addr ++ ", word " ++ toString (uint16le i2 i3))
    else do
      let i2 ← instruction.get? 2
      pure ("mov " ++ addr ++ ", byte " ++ toString (i2 % 256))
  else if modField = 0b01 then do
    let i2 ← instruction.get? 2
    let addr := "[" ++ effectiveAddressCalculation rmField ++ " + "
      ++ toString (sint8 i2) ++ "]"
    if w then do
      let i3 ← instruction.get? 3
      let i4 ← instruction.get? 4
      pure ("mov " ++ addr ++ ", word " ++ toString (uint16le i3 i4))
    else do
      let i3 ← instruction.get? 3
      pure ("mov " ++ addr ++ ", byte " ++ toString (i3 % 256))
  else if modField = 0b10 then do
    let i2 ← instruction.get? 2
    let i3 ← instruction.get? 3
    let addr := "[" ++ effectiveAddressCalculation rmField ++ " + "
      ++ toString (uint16le i2 i3) ++ "]"
    if w then do
      let i4 ← instruction.get? 4
      let i5 ← instruction.get? 5
      pure ("mov " ++ addr ++ ", word " ++ toString (uint16le i4 i5))
    else do
      let i4 ← instruction.get? 4
      pure ("mov " ++ addr ++ ", byte " ++ toString (i4 % 256))
  else
    pure "mov "

/-- Go func decodeMovImmediateToRegister(instruction []byte) string. -/
def decodeMovImmediateToRegister (instruction : List Nat) : Option String := do
  let i0 ← instruction.get? 0
  let i1 ← instruction.get? 1
  let isWord : Bool := (i0 >>> 3) &&& 0b1 == 1
  let regField := i0 &&& 0b0000111
  let data : Nat ← if isWord then do
      let i2 ← instruction.get? 2
      pure (uint16le i1 i2)
    else
      pure (i1 % 256)
  pure ("mov " ++ byteToRegisterString isWord regField ++ ", "
    ++ toString data)

/-- Go func decodeMemoryToAccumulator(instruction []byte) string. -/
def decodeMemoryToAccumulator (instruction : List Nat) : Option String := do
  let i0 ← instruction.get? 0
  let i1 ← instruction.get? 1
  let isWord : Bool := i0 &&& 0b1 == 1
  if isWord then do
    let i2 ← instruction.get? 2
    pure ("mov ax, [" ++ toString (uint16le i1 i2) ++ "]")
  else
    pure ("mov ax, [" ++ toString (i1 % 256) ++ "]")

/-- Go func decodeAccumulatorToMemory(instruction []byte) string. -/
def decodeAccumulatorToMemory (instruction : List Nat) : Option String := do
  let i0 ← instruction.get? 0
  let i1 ← instruction.get? 1
  let isWord : Bool := i0 &&& 0b1 == 1
  if isWord then do
    let i2 ← instruction.get? 2
    pure ("mov [" ++ toString (uint16le i1 i2) ++ "], ax")
  else
    pure ("mov [" ++ toString (i1 % 256) ++ "], ax")

/-- Go func (d *Decoder) AsmString(opcode Opcode, instruction []byte) string:
switch over the five opcode tags, default returning the empty string. -/
def AsmString (opcode : Opcode) (instruction : List Nat) : Option String :=
  if opcode = MovRegisterMemoryToFromRegister then
    decodeMovRegisterMemoryToFromRegister instruction
  else if opcode = MovImmediateToRegisterMemory then
    decodeMovImmediateToRegisterMemory instruction
  else if opcode = MovMemoryToAccumulator then
    decodeMemoryToAccumulator instruction
  else if opcode = MovAccumulatorToMemory then
    decodeAccumulatorToMemory instruction
  else if opcode = MovImmediateToRegister then
    decodeMovImmediateToRegister instruction
  else
    some ""

/-- Go struct Decoder: a byte buffer and a read position. -/
structure DecoderState where
  data : List Nat
  pos : Nat
deriving DecidableEq

/-- Go func (d *Decoder) HasNext() bool. -/
def hasNext (s : DecoderState) : Bool :=
  s.pos + 1 < s.data.length

/-- Outcome of one Go Next() call: io.EOF, the classification error,
a Go slice-bounds panic, or a decoded (opcode, instruction-bytes) pair. -/
inductive NextResult where
  | eof
  | errUnrecognized
  | panicSlice
  | ok (opcode : Opcode) (instruction : List Nat)
deriving DecidableEq

/-- Go func (d *Decoder) Next() (Opcode, []byte, error), returning the
result together with the updated decoder state.  The slice
d.Data[d.pos : d.pos+bytesToRead] panics when it reaches past the end of
the buffer; that outcome is modelled as panicSlice with the state
unchanged (the panic unwinds before d.pos is updated). -/
def next (s : DecoderState) : NextResult × DecoderState :=
  if ¬ hasNext s then (.eof, s)
  else
    match analyzeOpCode (s.data.getD s.pos 0) (s.data.getD (s.pos + 1) 0) with
    | none => (.errUnrecognized, s)
    | some (opcode, bytesToRead) =>
      if s.pos + bytesToRead ≤ s.data.length then
        (.ok opcode ((s.data.drop s.pos).take bytesToRead),
          { s with pos := s.pos + bytesToRead })
      else
        (.panicSlice, s)

/-- Runs up to n Next() calls, collecting the instruction byte spans of the
successful calls; stops at the first non-ok outcome (which leaves the
position unchanged). -/
def runN : Nat → DecoderState → List (List Nat) × DecoderState
  | 0, s => ([], s)
  | n + 1, s =>
    match next s with
    | (.ok _ instruction, s') =>
      let r := runN n s'
      (instruction :: r.1, r.2)
    | (_, s') => ([], s')

/-- Whether pat occurs as a contiguous substring of s. -/
def strContains (s pat : String) : Bool :=
  (List.range (s.length + 1)).any (fun i => pat.data.isPrefixOf (s.data.drop i))

/-- Spec-side definition: the ordered prefix table of the spec (longest
prefix first), with the 6-bit prefix corrected to 100010 as the code
actually tests it: 6-bit 100010, then 7-bit 1010000, 1010001, 1100011,
then 4-bit 1011; first match wins, otherwise no variant. -/
def specOrderedClassifyVariant (b0 : Nat) : Option Opcode :=
  if b0 >>> 2 = 0b100010 then some MovRegisterMemoryToFromRegister
  else if b0 >>> 1 = 0b1010000 then some MovMemoryToAccumulator
  else if b0 >>> 1 = 0b1010001 then some MovAccumulatorToMemory
  else if b0 >>> 1 = 0b1100011 then some MovImmediateToRegisterMemory
  else if b0 >>> 4 = 0b1011 then some MovImmediateToRegister
  else none

/-- Spec-side definition: the extra displacement bytes of the
RegisterMemoryToFromRegister variant, per the spec's additive rule
(mod=00 adds 2 only when r/m=110 else 0; mod=01 adds 1; mod=10 adds 2;
mod=11 adds 0). -/
def specRegMemDispLength (modField rmField : Nat) : Nat :=
  if modField = 0b00 then (if rmField = 0b110 then 2 else 0)
  else if modField = 0b01 then 1
  else if modField = 0b10 then 2
  else 0

/-- Spec-side definition: the extra displacement bytes of the
ImmediateToRegisterMemory variant per the spec (0/+1/+2 for mod=00/01/10,
no r/m=110 special case). -/
def specImmDispLength (modField : Nat) : Nat :=
  if modField = 0b01 then 1
  else if modField = 0b10 then 2
  else 0

/-- The do-bindings of decodeMovRegisterMemoryToFromRegister evaluated on a
4-element byte list (all accesses in range), by definitional reduction. -/
lemma decodeMovRegMem_cons (i0 i1 i2 i3 : Nat) :
    decodeMovRegisterMemoryToFromRegister [i0, i1, i2, i3] =
      (let w : Bool := i0 &&& 0b1 == 1
       let d : Bool := (i0 >>> 1) &&& 0b1 == 1
       let modField := (i1 >>> 6) &&& 0b11
       let regField := (i1 >>> 3) &&& 0b0000111
       let rmField := i1 &&& 0b0000111
       let dst : String := if d then byteToRegisterString w regField ++ ", " else ""
       let src : String := if !d then ", " ++ byteToRegisterString w regField else ""
       if modField = 0b00 then
         if rmField = 0b110 then
           some ("mov " ++ dst ++ "[" ++ toString (sint16 i2 i3) ++ "]" ++ src)
         else
           some ("mov " ++ dst ++ "[" ++ effectiveAddressCalculation rmField ++ "]" ++ src)
       else if modField = 0b01 then
         some ("mov " ++ dst ++ "[" ++ effectiveAddressCalculation rmField ++ " + "
           ++ toString (sint8 i2) ++ "]" ++ src)
       else if modField = 0b10 then
         some ("mov " ++ dst ++ "[" ++ effectiveAddressCalculation rmField ++ " + "
           ++ toString (sint16 i2 i3) ++ "]" ++ src)
       else if modField = 0b11 then
         some ("mov " ++ byteToRegisterString w rmField ++ ", "
           ++ byteToRegisterString w regField)
       else
         some "mov ") := rfl

/-- The do-bindings of decodeMovImmediateToRegisterMemory evaluated on a
6-element byte list (all accesses in range), by definitional reduction. -/
lemma decodeMovImmRegMem_cons (i0 i1 i2 i3 i4 i5 : Nat) :
    decodeMovImmediateToRegisterMemory [i0, i1, i2, i3, i4, i5] =
      (let w : Bool := i0 &&& 0b1 == 1
       let modField := (i1 >>> 6) &&& 0b11
       let rmField := i1 &&& 0b0000111
       if modField = 0b00 then
         let addr : String :=
           if rmField = 0b110 then "direct address 2"
           else "[" ++ effectiveAddressCalculation rmField ++ "]"
         if w then some ("mov " ++ addr ++ ", word " ++ toString (uint16le i2 i3))
         else some ("mov " ++ addr ++ ", byte " ++ toString (i2 % 256))
       else if modField = 0b01 then
         let addr := "[" ++ effectiveAddressCalculation rmField ++ " + "
           ++ toString (sint8 i2) ++ "]"
         if w then some ("mov " ++ addr ++ ", word " ++ toString (uint16le i3 i4))
         else some ("mov " ++ addr ++ ", byte " ++ toString (i3 % 256))
       else if modField = 0b10 then
         let addr := "[" ++ effectiveAddressCalculation rmField ++ " + "
           ++ toString (uint16le i2 i3) ++ "]"
         if w then some ("mov " ++ addr ++ ", word " ++ toString (uint16le i4 i5))
         else some ("mov " ++ addr ++ ", byte " ++ toString (i4 % 256))
       else
         some "mov ") := rfl

/-- A string that occurs between two others is a substring. -/
lemma strContains_of_middle (a b c : String) : strContains (a ++ b ++ c) b = true := by
  unfold strContains
  rw [List.any_eq_true]
  refine ⟨a.length, ?_, ?_⟩
  · rw [List.mem_range]
    have h1 : (a ++ b ++ c).length = a.length + b.length + c.length := by
      simp [String.length_append]
    omega
  · have hd : (a ++ b ++ c).data = a.data ++ (b.data ++ c.data) := by
      simp [String.data_append]
    rw [hd]
    have hlen : a.length = a.data.length := rfl
    rw [hlen, List.drop_left]
    rw [List.isPrefixOf_iff_prefix]
    exact List.prefix_append _ _

/-- The bracketed operand of a RegisterMemoryToFromRegister rendering is a
substring of the whole line. -/
lemma strContains_regmem_operand (m dst ea dsp src : String) :
    strContains (m ++ dst ++ "[" ++ ea ++ " + " ++ dsp ++ "]" ++ src)
      ("[" ++ ea ++ " + " ++ dsp ++ "]") = true := by
  have h : m ++ dst ++ "[" ++ ea ++ " + " ++ dsp ++ "]" ++ src
      = (m ++ dst) ++ ("[" ++ ea ++ " + " ++ dsp ++ "]") ++ src := by
    simp [String.append_assoc]
  rw [h]
  exact strContains_of_middle _ _ _

/-- The bracketed operand of an ImmediateToRegisterMemory rendering is a
substring of the whole line. -/
lemma strContains_imm_operand (m ea dsp t n : String) :
    strContains (m ++ ("[" ++ ea ++ " + " ++ dsp ++ "]") ++ t ++ n)
      ("[" ++ ea ++ " + " ++ dsp ++ "]") = true := by
  have h : m ++ ("[" ++ ea ++ " + " ++ dsp ++ "]") ++ t ++ n
      = m ++ ("[" ++ ea ++ " + " ++ dsp ++ "]") ++ (t ++ n) := by
    simp [String.append_assoc]
  rw [h]
  exact strContains_of_middle _ _ _

/-- A successful next call preserves the buffer, advances the position by
exactly the length of the returned instruction slice, and stays within the
buffer. -/
lemma next_ok_spec (s : DecoderState) (opcode : Opcode) (instruction : List Nat)
    (s' : DecoderState) (h : next s = (.ok opcode instruction, s')) :
    s'.data = s.data ∧ s'.pos = s.pos + instruction.length
      ∧ s'.pos ≤ s.data.length := by
  unfold next at h
  split at h
  · simp at h
  · split at h
    · simp at h
    · rename_i opcode' bytesToRead heq
      split at h
      · rename_i hle
        obtain ⟨h1, h2⟩ := Prod.mk.inj h
        obtain ⟨ho, hi⟩ := NextResult.ok.inj h1
        subst ho hi
        subst h2
        refine ⟨rfl, ?_, ?_⟩
        · simp only [List.length_take, List.length_drop]
          omega
        · simp only [List.length_take, List.length_drop]
          omega
      · simp at h

/-- A next call that does not return an instruction leaves the decoder state
unchanged. -/
lemma next_fail (s : DecoderState) (r : NextResult) (s' : DecoderState)
    (h : next s = (r, s')) (hr : ∀ opcode instruction, r ≠ .ok opcode instruction) :
    s' = s := by
  unfold next at h
  split at h
  · obtain ⟨h1, h2⟩ := Prod.mk.inj h
    exact h2.symm
  · split at h
    · obtain ⟨h1, h2⟩ := Prod.mk.inj h
      exact h2.symm
    · split at h
      · obtain ⟨h1, h2⟩ := Prod.mk.inj h
        exact absurd h1.symm (hr _ _)
      · obtain ⟨h1, h2⟩ := Prod.mk.inj h
        exact h2.symm

/-- Across any number of next calls the buffer is unchanged, the position
advances by exactly the sum of the returned instruction lengths, and stays
within the buffer. -/
lemma runN_spec (N : Nat) : ∀ s : DecoderState, s.pos ≤ s.data.length →
    (runN N s).2.data = s.data
  ∧ (runN N s).2.pos = s.pos + ((runN N s).1.map List.length).sum
  ∧ (runN N s).2.pos ≤ s.data.length := by
  induction N with
  | zero =>
    intro s hpos
    exact ⟨rfl, by simp [runN], by simpa [runN] using hpos⟩
  | succ n ih =>
    intro s hpos
    cases hn : next s with
    | mk r s' =>
      cases r with
      | ok opcode instruction =>
        obtain ⟨hdat, hp, hle⟩ := next_ok_spec s opcode instruction s' hn
        obtain ⟨ihd, ihp, ihle⟩ := ih s' (by rw [hdat]; exact hle)
        simp only [runN, hn]
        refine ⟨by rw [ihd, hdat], ?_, by rw [hdat] at ihle; exact ihle⟩
        simp only [List.map_cons, List.sum_cons]
        omega
      | eof =>
        have hs : s' = s := next_fail s _ s' hn (by intro a b hc; cases hc)
        subst hs
        simpa [runN, hn] using hpos
      | errUnrecognized =>
        have hs : s' = s := next_fail s _ s' hn (by intro a b hc; cases hc)
        subst hs
        simpa [runN, hn] using hpos
      | panicSlice =>
        have hs : s' = s := next_fail s _ s' hn (by intro a b hc; cases hc)
        subst hs
        simpa [runN, hn] using hpos

/-! ## Theorems -/

/-- C1 counterexample: the byte 0x20 has top 6 bits 001000, the prefix value
the claim names for RegisterMemoryToFromRegister, yet classify rejects it;
conversely 0x88 matches none of the claim's five prefix values, yet classify
returns RegisterMemoryToFromRegister. -/
theorem classify_prefix_as_stated_cex :
    (0x20 >>> 2 = 0b001000) ∧ analyzeOpCode 0x20 0x00 = none
  ∧ (0x88 >>> 2 ≠ 0b001000 ∧ 0x88 >>> 1 ≠ 0b1010000 ∧ 0x88 >>> 1 ≠ 0b1010001
      ∧ 0x88 >>> 1 ≠ 0b1100011 ∧ 0x88 >>> 4 ≠ 0b1011)
  ∧ analyzeOpCode 0x88 0x00 = some (MovRegisterMemoryToFromRegister, 2) := by
  decide

/-- C1 (amended): for every 2-byte input, the variant classify returns is
exactly the first match of the ordered prefix table (6-bit 100010, then
7-bit 1010000, 1010001, 1100011, then 4-bit 1011), and a first byte
matching none of the five prefixes yields the UnrecognizedOpcode error. -/
theorem classify_firstMatchingPrefix (b0 b1 : Nat) :
    (analyzeOpCode b0 b1).map Prod.fst = specOrderedClassifyVariant b0 := by
  simp only [analyzeOpCode, specOrderedClassifyVariant,
    MovRegisterMemoryToFromRegister, MovMemoryToAccumulator,
    MovAccumulatorToMemory, MovImmediateToRegisterMemory,
    MovImmediateToRegister]
  split_ifs <;> rfl

/-- C1 witness: the characterization evaluated at the bytes 0x88, 0x00. -/
theorem classify_firstMatchingPrefix_witness :
    (analyzeOpCode 0x88 0x00).map Prod.fst = specOrderedClassifyVariant 0x88 :=
  classify_firstMatchingPrefix 0x88 0x00

set_option maxHeartbeats 1600000 in
/-- C2: every prefix classified as RegisterMemoryToFromRegister has total
length 2 plus the mod/rm displacement rule, and every prefix classified as
ImmediateToRegisterMemory has total length 3, plus 1 when w=1, plus the
mod displacement rule with no r/m=110 special case. -/
theorem movLength_rules (b0 b1 : Nat) (hb1 : b1 < 256) :
    (∀ n, analyzeOpCode b0 b1 = some (MovRegisterMemoryToFromRegister, n) →
      n = 2 + specRegMemDispLength (b1 >>> 6) (b1 &&& 0b111))
  ∧ (∀ n, analyzeOpCode b0 b1 = some (MovImmediateToRegisterMemory, n) →
      n = 3 + (if b0 &&& 0b1 = 1 then 1 else 0) + specImmDispLength (b1 >>> 6)) := by
  have hmod : b1 >>> 6 < 4 := by
    rw [Nat.shiftRight_eq_div_pow]
    omega
  constructor <;> intro n h <;>
    simp only [analyzeOpCode, MovRegisterMemoryToFromRegister,
      MovMemoryToAccumulator, MovAccumulatorToMemory,
      MovImmediateToRegisterMemory, MovImmediateToRegister] at h <;>
    simp only [specRegMemDispLength, specImmDispLength] <;>
    split_ifs at h ⊢ <;>
    obtain ⟨h1, h2⟩ := Prod.mk.inj (Option.some.inj h) <;>
    first
    | omega
    | exact absurd h1 (by decide)

/-- C2 witness: the length rule evaluated at the bytes 0x88, 0x41
(RegisterMemoryToFromRegister, mod=01): total length 3 = 2 + 1. -/
theorem movLength_rules_witness :
    (3 : Nat) = 2 + specRegMemDispLength (0x41 >>> 6) (0x41 &&& 0b111) :=
  (movLength_rules 0x88 0x41 (by decide)).1 3 (by decide)

/-- C5 (code bug): at mod=00, r/m=110 the ImmediateToRegisterMemory renderer
emits the literal placeholder "direct address 2" instead of a bracketed
absolute address, and the RegisterMemoryToFromRegister renderer prints the
16-bit direct address as a signed value rather than unsigned. -/
theorem direct_address_placeholder_bug :
    decodeMovImmediateToRegisterMemory [0xC7, 0x06, 0x34, 0x12]
      = some "mov direct address 2, word 4660"
  ∧ decodeMovRegisterMemoryToFromRegister [0x8B, 0x06, 0x00, 0x80]
      = some "mov ax, [-32768]" := by
  decide

/-- C6 counterexample: the first byte 0xA0 has w=0, so classify computes
total length 2 (not 3) and render on the 2-byte instruction yields
"mov ax, [0]" (not "mov ax, [256]"). -/
theorem memToAcc_example_as_stated_cex :
    analyzeOpCode 0xA0 0x00 = some (MovMemoryToAccumulator, 2)
  ∧ (2 : Nat) ≠ 3
  ∧ decodeMemoryToAccumulator [0xA0, 0x00] = some "mov ax, [0]"
  ∧ "mov ax, [0]" ≠ "mov ax, [256]" := by
  decide

/-- C6 (amended): for the input bytes 0xA1, 0x00, 0x01 (whose first byte has
w=1), classify returns MemoryToAccumulator with total length 3 and render
returns "mov ax, [256]". -/
theorem memToAcc_example_amended :
    analyzeOpCode 0xA1 0x00 = some (MovMemoryToAccumulator, 3)
  ∧ decodeMemoryToAccumulator [0xA1, 0x00, 0x01] = some "mov ax, [256]" := by
  decide

/-- C8 counterexample: the resolver returns "bx + si" (with spaces), not the
claim's exact string "bx+si". -/
theorem effectiveAddress_exact_strings_cex :
    effectiveAddressCalculation 0 = "bx + si" ∧ "bx + si" ≠ "bx+si" := by
  decide

/-- C8 (amended): for every r/m code in 0..7 the resolver returns exactly
the table entry, with the register names separated by " + ":
0→"bx + si", 1→"bx + di", 2→"bp + si", 3→"bp + di", 4→"si", 5→"di",
6→"bp", 7→"bx". -/
theorem effectiveAddress_table_amended :
    effectiveAddressCalculation 0 = "bx + si"
  ∧ effectiveAddressCalculation 1 = "bx + di"
  ∧ effectiveAddressCalculation 2 = "bp + si"
  ∧ effectiveAddressCalculation 3 = "bp + di"
  ∧ effectiveAddressCalculation 4 = "si"
  ∧ effectiveAddressCalculation 5 = "di"
  ∧ effectiveAddressCalculation 6 = "bp"
  ∧ effectiveAddressCalculation 7 = "bx" := by
  decide

/-- C3: over any number of Next() calls from a state whose position is within
the buffer: HasNext holds exactly when position + 1 < buffer length; a failed
call leaves the state unchanged; the buffer is never mutated; the position
equals the initial position plus the sum of the returned instruction
lengths, is monotonically non-decreasing, and never exceeds the buffer
length. -/
theorem cursor_position_invariants (N : Nat) (s : DecoderState)
    (hpos : s.pos ≤ s.data.length) :
    (hasNext s = true ↔ s.pos + 1 < s.data.length)
  ∧ (∀ r s', next s = (r, s') →
      (∀ opcode instruction, r ≠ .ok opcode instruction) → s' = s)
  ∧ (runN N s).2.data = s.data
  ∧ (runN N s).2.pos = s.pos + ((runN N s).1.map List.length).sum
  ∧ s.pos ≤ (runN N s).2.pos
  ∧ (runN N s).2.pos ≤ s.data.length := by
  obtain ⟨hd, hp, hle⟩ := runN_spec N s hpos
  exact ⟨by simp [hasNext], fun r s' h hr => next_fail s r s' h hr, hd, hp,
    by omega, hle⟩

/-- C3 witness: two successful calls on the 5-byte buffer
0x89 0xD9 0xB8 0x01 0x00 advance the position by the sum of the two
returned lengths. -/
theorem cursor_position_invariants_witness :
    (runN 2 ⟨[0x89, 0xD9, 0xB8, 0x01, 0x00], 0⟩).2.pos
      = 0 + (((runN 2 ⟨[0x89, 0xD9, 0xB8, 0x01, 0x00], 0⟩).1.map List.length).sum) :=
  (cursor_position_invariants 2 ⟨[0x89, 0xD9, 0xB8, 0x01, 0x00], 0⟩
    (by decide)).2.2.2.1

/-- C4 counterexample: rendering the bytes 0x8B 0x41 0xDB yields
"mov ax, [bx + di + -37]", which does not contain the claim's "[bx + -37]"
form; a zero displacement is still appended (" + 0]" occurs); and the
ImmediateToRegisterMemory renderer prints a mod=10 displacement unsigned
(65499 rather than -37). -/
theorem displacement_render_as_stated_cex :
    decodeMovRegisterMemoryToFromRegister [0x8B, 0x41, 0xDB]
      = some "mov ax, [bx + di + -37]"
  ∧ strContains "mov ax, [bx + di + -37]" "[bx + -37]" = false
  ∧ decodeMovRegisterMemoryToFromRegister [0x8B, 0x41, 0x00]
      = some "mov ax, [bx + di + 0]"
  ∧ strContains "mov ax, [bx + di + 0]" " + 0]" = true
  ∧ decodeMovImmediateToRegisterMemory [0xC7, 0x81, 0xDB, 0xFF, 0x05, 0x00]
      = some "mov [bx + di + 65499], word 5" := by
  decide

/-- C4 (amended): for every mod=01 or mod=10 instruction, the rendered text
contains the operand "[" ++ expression ++ " + " ++ displacement ++ "]" with
the displacement appended unconditionally (also when it is zero); the
displacement is signed decimal in RegisterMemoryToFromRegister (8-bit for
mod=01, 16-bit for mod=10) and in ImmediateToRegisterMemory mod=01, but
unsigned decimal in ImmediateToRegisterMemory mod=10; the bytes
0x8B 0x41 0xDB render as "mov ax, [bx + di + -37]". -/
theorem displacement_render_amended (i0 i1 i2 i3 i4 i5 : Nat) :
    ((i1 >>> 6) &&& 0b11 = 0b01 →
      ∃ s, decodeMovRegisterMemoryToFromRegister [i0, i1, i2, i3] = some s
        ∧ strContains s ("[" ++ effectiveAddressCalculation (i1 &&& 0b0000111)
            ++ " + " ++ toString (sint8 i2) ++ "]") = true)
  ∧ ((i1 >>> 6) &&& 0b11 = 0b10 →
      ∃ s, decodeMovRegisterMemoryToFromRegister [i0, i1, i2, i3] = some s
        ∧ strContains s ("[" ++ effectiveAddressCalculation (i1 &&& 0b0000111)
            ++ " + " ++ toString (sint16 i2 i3) ++ "]") = true)
  ∧ ((i1 >>> 6) &&& 0b11 = 0b01 →
      ∃ s, decodeMovImmediateToRegisterMemory [i0, i1, i2, i3, i4, i5] = some s
        ∧ strContains s ("[" ++ effectiveAddressCalculation (i1 &&& 0b0000111)
            ++ " + " ++ toString (sint8 i2) ++ "]") = true)
  ∧ ((i1 >>> 6) &&& 0b11 = 0b10 →
      ∃ s, decodeMovImmediateToRegisterMemory [i0, i1, i2, i3, i4, i5] = some s
        ∧ strContains s ("[" ++ effectiveAddressCalculation (i1 &&& 0b0000111)
            ++ " + " ++ toString (uint16le i2 i3) ++ "]") = true)
  ∧ decodeMovRegisterMemoryToFromRegister [0x8B, 0x41, 0xDB]
      = some "mov ax, [bx + di + -37]" := by
  refine ⟨?_, ?_, ?_, ?_, by decide⟩
  · intro h
    cases hd : (i0 >>> 1) &&& 0b1 == 1 <;>
      simp only [decodeMovRegMem_cons, h, hd, Bool.not_true, Bool.not_false,
        reduceIte] <;>
      exact ⟨_, rfl, strContains_regmem_operand _ _ _ _ _⟩
  · intro h
    cases hd : (i0 >>> 1) &&& 0b1 == 1 <;>
      simp only [decodeMovRegMem_cons, h, hd, Bool.not_true, Bool.not_false,
        reduceIte] <;>
      exact ⟨_, rfl, strContains_regmem_operand _ _ _ _ _⟩
  · intro h
    cases hw : i0 &&& 0b1 == 1 <;>
      simp only [decodeMovImmRegMem_cons, h, hw, reduceIte] <;>
      exact ⟨_, rfl, strContains_imm_operand _ _ _ _ _⟩
  · intro h
    cases hw : i0 &&& 0b1 == 1 <;>
      simp only [decodeMovImmRegMem_cons, h, hw, reduceIte] <;>
      exact ⟨_, rfl, strContains_imm_operand _ _ _ _ _⟩

/-- C4 witness: the mod=01 clause at the bytes 0x8B 0x41 0xDB 0x00. -/
theorem displacement_render_amended_witness :
    ∃ s, decodeMovRegisterMemoryToFromRegister [0x8B, 0x41, 0xDB, 0x00] = some s
      ∧ strContains s ("[" ++ effectiveAddressCalculation (0x41 &&& 0b0000111)
          ++ " + " ++ toString (sint8 0xDB) ++ "]") = true :=
  (displacement_render_amended 0x8B 0x41 0xDB 0x00 0x00 0x00).1 (by decide)

/-- C7: whenever fewer than 2 bytes remain, HasNext is false and Next
returns the io.EOF end-of-stream signal with the state unchanged, without
attempting classification. -/
theorem endOfStream_clean_termination (s : DecoderState)
    (h : s.data.length < s.pos + 2) :
    hasNext s = false ∧ next s = (.eof, s) := by
  have hb : ¬ (s.pos + 1 < s.data.length) := by omega
  have hn : hasNext s = false := by
    simp only [hasNext, decide_eq_false_iff_not]
    exact hb
  refine ⟨hn, ?_⟩
  simp [next, hn]

/-- C7 witness: a 1-byte buffer terminates iteration cleanly. -/
theorem endOfStream_clean_termination_witness :
    hasNext ⟨[0x90], 0⟩ = false
  ∧ next ⟨[0x90], 0⟩ = (.eof, ⟨[0x90], 0⟩) :=
  endOfStream_clean_termination ⟨[0x90], 0⟩ (by decide)

/-- C9: AsmString applied to any opcode value other than the five handled
variant tags returns the empty string without touching the instruction
bytes. -/
theorem asmString_unknown_opcode_empty (opcode : Opcode) (instruction : List Nat)
    (h1 : opcode ≠ MovRegisterMemoryToFromRegister)
    (h2 : opcode ≠ MovImmediateToRegisterMemory)
    (h3 : opcode ≠ MovMemoryToAccumulator)
    (h4 : opcode ≠ MovAccumulatorToMemory)
    (h5 : opcode ≠ MovImmediateToRegister) :
    AsmString opcode instruction = some "" := by
  simp [AsmString, h1, h2, h3, h4, h5]

/-- C9 witness: opcode 0 on the empty byte list. -/
theorem asmString_unknown_opcode_empty_witness :
    AsmString 0 [] = some "" :=
  asmString_unknown_opcode_empty 0 [] (by decide) (by decide) (by decide)
    (by decide) (by decide)

/-- C10: on the 2-byte buffer 0x8B 0x41 HasNext holds and classification
succeeds with length 3, yet Next's slice would reach past the end of the
buffer (a Go slice-bounds panic); whenever pos + length ≤ buffer length the
slice is in bounds and Next succeeds. -/
theorem next_slice_bounds :
    hasNext ⟨[0x8B, 0x41], 0⟩ = true
  ∧ analyzeOpCode 0x8B 0x41 = some (MovRegisterMemoryToFromRegister, 3)
  ∧ next ⟨[0x8B, 0x41], 0⟩ = (.panicSlice, ⟨[0x8B, 0x41], 0⟩)
  ∧ (∀ (s : DecoderState) (opcode : Opcode) (bytesToRead : Nat),
      hasNext s = true →
      analyzeOpCode (s.data.getD s.pos 0) (s.data.getD (s.pos + 1) 0)
        = some (opcode, bytesToRead) →
      s.pos + bytesToRead ≤ s.data.length →
      next s = (.ok opcode ((s.data.drop s.pos).take bytesToRead),
        ⟨s.data, s.pos + bytesToRead⟩)) := by
  refine ⟨by decide, by decide, by decide, ?_⟩
  intro s opcode bytesToRead hh ha hle
  unfold next
  rw [if_neg (by simp [hh])]
  simp only [ha, if_pos hle]

/-- C10 witness: with one more byte in the buffer the same prefix is decoded
in bounds. -/
theorem next_slice_bounds_witness :
    next ⟨[0x8B, 0x41, 0x00], 0⟩
      = (.ok MovRegisterMemoryToFromRegister
          (([0x8B, 0x41, 0x00].drop 0).take 3), ⟨[0x8B, 0x41, 0x00], 0 + 3⟩) :=
  next_slice_bounds.2.2.2 ⟨[0x8B, 0x41, 0x00], 0⟩ MovRegisterMemoryToFromRegister 3
    (by decide) (by decide) (by decide)

end Decoder8086
